import Mathlib

/-
Verification of the jira-dashboard widget (two source variants: an
assignee-grouping one and a sprint-then-assignee one).  The JavaScript
source is shallowly embedded: DOM text extraction becomes Option String
fields on an Item record, the JS truthiness operator "||" becomes
explicit defaulting functions, sequential global string replacement is
modelled by a fuel-indexed scanner with the same leftmost,
non-rescanning semantics, and the page, fetch and console effects are
modelled as explicit data.
-/

namespace JiraDashboard

/-- String defaulting by JavaScript truthiness: models the expression
written in the source as a string followed by two vertical bars and a
default, where the empty string falls through to the default. -/
def jsOrS (s d : String) : String := if s = "" then d else s

/-- Truthiness defaulting for a possibly-absent DOM text: models the
source pattern of an optional-chained textContent followed by two
vertical bars and a default string; an absent element or an empty text
falls through to the default. -/
def jsOr (a : Option String) (d : String) : String :=
  match a with
  | none => d
  | some s => jsOrS s d

/-- Truthiness filtering that keeps absence: models the source pattern
of a value followed by two vertical bars and undefined (or null), as in
the parentKey and comment id and created fields. -/
def truthyOpt (a : Option String) : Option String :=
  match a with
  | none => none
  | some s => if s = "" then none else some s

/-- Whitespace test used by trim and by the title-stripping pattern. -/
def isWS (c : Char) : Bool := c.isWhitespace

/-- Character-list form of JavaScript trim (both ends). -/
def trimL (l : List Char) : List Char :=
  ((l.dropWhile isWS).reverse.dropWhile isWS).reverse

/-- models JavaScript String.prototype.trim -/
def jsTrim (s : String) : String := ⟨trimL s.toList⟩

/-- models JavaScript String.prototype.toLowerCase character by
character. -/
def lowerS (s : String) : String := ⟨s.toList.map Char.toLower⟩

/-- Substring test on character lists. -/
def containsSubL (sub : List Char) : List Char → Bool
  | [] => sub.isEmpty
  | c :: t => sub.isPrefixOf (c :: t) || containsSubL sub t

/-- models JavaScript String.prototype.includes -/
def jsIncludes (s sub : String) : Bool := containsSubL sub.toList s.toList

/-- Fuel-indexed scanner for global literal replacement.  The fuel is
always instantiated with the length of the scanned list, so the
fuel-exhausted branch is unreachable in replaceL. -/
def replaceLAux (pat rep : List Char) : Nat → List Char → List Char
  | 0, l => l
  | _ + 1, [] => []
  | fuel + 1, c :: rest =>
    if pat.isPrefixOf (c :: rest) then
      rep ++ replaceLAux pat rep fuel (rest.drop (pat.length - 1))
    else
      c :: replaceLAux pat rep fuel rest

/-- models JavaScript String.prototype.replace with a global literal
pattern: leftmost match first, non-overlapping, and the replacement
text is never rescanned (scanning resumes in the source after the
matched occurrence). -/
def replaceL (pat rep l : List Char) : List Char := replaceLAux pat rep l.length l

/-- String wrapper for replaceL. -/
def jsReplaceAll (s pat rep : String) : String := ⟨replaceL pat.toList rep.toList s.toList⟩

/-- The entity-decoding chain applied by the parser to description text
and comment bodies, in the exact source order: first the lt entity,
then gt, then amp, then quot (part_000 lines 37-42 and 53,
jira-dashboard.js lines 49-54 and 65). -/
def decodeEntities (s : String) : String :=
  jsReplaceAll (jsReplaceAll (jsReplaceAll (jsReplaceAll s "&lt;" "<") "&gt;" ">") "&amp;" "&") "&quot;" "\""

/-- Text of a title before the first colon: models split on a colon
followed by indexing the first component. -/
def firstColonSegment (s : String) : String :=
  ⟨s.toList.takeWhile (fun c => c ≠ ':')⟩

/-- models the summary fallback regex replacement that deletes a
leading colon-free run, the colon, and following whitespace; when the
title has no colon the regex does not match and the title is kept. -/
def stripKeyFromTitle (s : String) : String :=
  if s.toList.contains ':' then
    ⟨((s.toList.dropWhile (fun c => c ≠ ':')).drop 1).dropWhile isWS⟩
  else s

/-- One comment element as found in the feed markup: attribute values
(absent attributes give none) and the element text. -/
structure RawComment where
  id : Option String
  author : Option String
  username : Option String
  created : Option String
  body : String
deriving DecidableEq

/-- Parsed comment record (part_000 lines 49-54). -/
structure Comment where
  id : Option String
  author : String
  created : Option String
  body : String
deriving DecidableEq

/-- One item element of the feed: each field is the text content of the
first matching descendant element, or none when the element is absent.
The comments field is some when a comments element exists, holding its
comment children in document order. -/
structure Item where
  guid : Option String
  link : Option String
  key : Option String
  title : Option String
  summary : Option String
  description : Option String
  type : Option String
  status : Option String
  assignee : Option String
  reporter : Option String
  priority : Option String
  updated : Option String
  created : Option String
  pubDate : Option String
  parent : Option String
  comments : Option (List RawComment)
deriving DecidableEq

/-- The empty item: every element absent. -/
def emptyItem : Item :=
  { guid := none, link := none, key := none, title := none, summary := none
  , description := none, type := none, status := none, assignee := none
  , reporter := none, priority := none, updated := none, created := none
  , pubDate := none, parent := none, comments := none }

/-- Parsed ticket record.  The sprint field is filled only by the
sprint variant's parser (from a Sprint customfield); the embedded
parser below follows part_000 and leaves it absent. -/
structure Ticket where
  id : String
  key : String
  summary : String
  description : String
  type : String
  status : String
  assignee : String
  priority : String
  updated : String
  created : String
  parentKey : Option String
  link : String
  comments : List Comment
  sprint : Option String
deriving DecidableEq

/-- Comment extraction (part_000 lines 49-54): attribute defaulting by
truthiness and entity decoding plus trim on the body. -/
def makeComment (c : RawComment) : Comment :=
  { id := truthyOpt c.id
  , author := jsOr c.author (jsOr c.username "Unknown")
  , created := truthyOpt c.created
  , body := jsTrim (decodeEntities c.body) }

/-- Key resolution (part_000 line 59): the key element's text, else the
title text before the first colon, else empty. -/
def resolveKey (i : Item) : String :=
  jsOr i.key (firstColonSegment (jsOr i.title ""))

/-- Ticket construction for one item (part_000 lines 34-71).  The now
argument is the ambient clock value that the source reads as a fresh
ISO timestamp for the created and updated defaults. -/
def makeTicket (now : String) (i : Item) : Ticket :=
  { id := jsOr i.guid (jsOr i.link "")
  , key := resolveKey i
  , summary := jsOr i.summary (jsOr (i.title.map stripKeyFromTitle) "")
  , description :=
      match i.description with
      | none => ""
      | some raw => jsTrim (decodeEntities raw)
  , type := jsOr i.type "Task"
  , status := jsOr i.status "Unknown"
  , assignee := jsOr i.assignee (jsOr i.reporter "Unassigned")
  , priority := jsOr i.priority "Medium"
  , updated := jsOr i.updated (jsOr i.pubDate now)
  , created := jsOr i.created (jsOr i.pubDate now)
  , parentKey := truthyOpt i.parent
  , link := jsOr i.link ""
  , comments := (i.comments.getD []).map makeComment
  , sprint := none }

/-- Body of the parser's per-item loop (part_000 lines 32-77): build
the ticket and push it exactly when its resolved key is truthy. -/
def parseStep (now : String) (tickets : List Ticket) (item : Item) : List Ticket :=
  let t := makeTicket now item
  if t.key = "" then tickets else tickets ++ [t]

/-- The parser (part_000 lines 26-80): one pass over the items.  The
embedding is total, mirroring that the per-item try/catch never fires
for the pure field extractions modelled here. -/
def parseJiraXML (now : String) (items : List Item) : List Ticket :=
  items.foldl (parseStep now) []

/-- Classification of a ticket as a user story: case-insensitive
substring test of the type field for the word story.  The part_000 and
sprint variants first default the type field through truthiness with an
empty-string default, which is the identity on strings (lemma
jsOrS_empty below), so one definition serves all three groupers. -/
def isStory (t : Ticket) : Bool := jsIncludes (lowerS t.type) "story"

/-- Case-insensitive substring test of the type field for the word
task, used only by the stats computation. -/
def isTask (t : Ticket) : Bool := jsIncludes (lowerS t.type) "task"

/-- One assignee bucket of the part_000 grouper. -/
structure Bucket where
  userStories : List Ticket
  tasks : List Ticket
  raw : List Ticket
deriving DecidableEq

def emptyBucket : Bucket := { userStories := [], tasks := [], raw := [] }

/-- One assignee bucket of the jira-dashboard.js first-variant grouper
(lines 132-144), which keeps no raw list. -/
structure BucketJS where
  userStories : List Ticket
  tasks : List Ticket
deriving DecidableEq

def emptyBucketJS : BucketJS := { userStories := [], tasks := [] }

/-- Ordered-key mapping update: JavaScript object property assignment
with string keys preserves first-insertion order, so the object is
modelled as an association list where a missing key is appended at the
end, initialised and then updated. -/
def updateAssoc {α : Type} (k : String) (init : α) (f : α → α) :
    List (String × α) → List (String × α)
  | [] => [(k, f init)]
  | (k', v) :: rest =>
    if k' = k then (k', f v) :: rest else (k', v) :: updateAssoc k init f rest

/-- Lookup of a string property: the first entry with the key. -/
def lookupAssoc {α : Type} (k : String) : List (String × α) → Option α
  | [] => none
  | (k', v) :: rest => if k' = k then some v else lookupAssoc k rest

/-- One reduce step of the part_000 grouper body (lines 113-118). -/
def addTicket (t : Ticket) (b : Bucket) : Bucket :=
  if isStory t then
    { b with raw := b.raw ++ [t], userStories := b.userStories ++ [t] }
  else
    { b with raw := b.raw ++ [t], tasks := b.tasks ++ [t] }

/-- One reduce step of the jira-dashboard.js first-variant grouper
body (lines 134-141). -/
def addTicketJS (t : Ticket) (b : BucketJS) : BucketJS :=
  if isStory t then { b with userStories := b.userStories ++ [t] }
  else { b with tasks := b.tasks ++ [t] }

/-- Bucket key of the part_000 grouper: the assignee, defaulted by
truthiness to Unassigned (line 113). -/
def assigneeKey (t : Ticket) : String := jsOrS t.assignee "Unassigned"

/-- Bucket key of the sprint grouper: the sprint field, defaulted by
truthiness to No Sprint (jira-dashboard.js line 1004). -/
def sprintKey (t : Ticket) : String := jsOr t.sprint "No Sprint"

/-- The part_000 grouper (lines 111-120). -/
def groupTicketsByAssignee (tickets : List Ticket) : List (String × Bucket) :=
  tickets.foldl (fun acc t => updateAssoc (assigneeKey t) emptyBucket (addTicket t) acc) []

/-- The jira-dashboard.js first-variant grouper (lines 132-144): the
key is the assignee field verbatim and no raw list is kept. -/
def groupTicketsByAssigneeJS (tickets : List Ticket) : List (String × BucketJS) :=
  tickets.foldl (fun acc t => updateAssoc t.assignee emptyBucketJS (addTicketJS t) acc) []

/-- The sprint variant grouper (jira-dashboard.js lines 1002-1013):
sprint key on the outside, assignee key and story/task split inside. -/
def groupTicketsBySprintAndAssignee (tickets : List Ticket) :
    List (String × List (String × Bucket)) :=
  tickets.foldl
    (fun acc t =>
      updateAssoc (sprintKey t) []
        (fun inner => updateAssoc (assigneeKey t) emptyBucket (addTicket t) inner) acc) []

/-- Bucket key of the renderer's per-assignee task partition: the
parentKey, defaulted by truthiness to the sentinel standalone
(part_000 line 170, jira-dashboard.js line 446). -/
def parentBucketKey (t : Ticket) : String := jsOr t.parentKey "standalone"

/-- The renderer's per-assignee partition of a bucket's tasks by
parent key (part_000 lines 169-174, jira-dashboard.js lines 445-450). -/
def tasksByParent (tasks : List Ticket) : List (String × List Ticket) :=
  tasks.foldl (fun acc t => updateAssoc (parentBucketKey t) [] (fun l => l ++ [t]) acc) []

/-- The task list the renderer shows under the Standalone Tasks heading
(part_000 lines 256-260): the entry of the partition at the sentinel
standalone key, nothing when that entry is missing. -/
def standaloneTasks (tasks : List Ticket) : List Ticket :=
  (lookupAssoc "standalone" (tasksByParent tasks)).getD []

/-- Flattened story-and-task contents of an assignee mapping, in
insertion order, as used to compare grouping with its input. -/
def groupedContents (g : List (String × Bucket)) : List Ticket :=
  (g.map (fun kv => kv.2.userStories ++ kv.2.tasks)).flatten

/-- Flattened contents of the first-variant assignee mapping. -/
def groupedContentsJS (g : List (String × BucketJS)) : List Ticket :=
  (g.map (fun kv => kv.2.userStories ++ kv.2.tasks)).flatten

/-- Flattened contents of the sprint-then-assignee mapping. -/
def sprintContents (g : List (String × List (String × Bucket))) : List Ticket :=
  (g.map (fun skv => groupedContents skv.2)).flatten

/-- Stats of the part_000 renderer (lines 135-140): total count and two
independent substring filters over the full ticket list. -/
def statsUserStories (tickets : List Ticket) : Nat :=
  (tickets.filter (fun t => isStory t)).length

def statsTasks (tickets : List Ticket) : Nat :=
  (tickets.filter (fun t => isTask t)).length

def statsTotalTickets (tickets : List Ticket) : Nat := tickets.length

/-- Total number of tickets held in the tasks lists of the grouped
assignee buckets. -/
def groupedTaskTotal (tickets : List Ticket) : Nat :=
  ((groupTicketsByAssignee tickets).map (fun kv => kv.2.tasks.length)).sum

/-- Total number of tickets held in the userStories lists of the
grouped assignee buckets. -/
def groupedStoryTotal (tickets : List Ticket) : Nat :=
  ((groupTicketsByAssignee tickets).map (fun kv => kv.2.userStories.length)).sum

/-- The fixed identifier of the overlay element. -/
def popupId : String := "jira-dashboard-popup"

/-- Removal of the element a getElementById call finds: the first
element carrying the identifier, when one exists.  The page is
modelled as the ordered list of the identifiers of the body's
children. -/
def removeFirstId (target : String) : List String → List String
  | [] => []
  | x :: xs => if x = target then xs else x :: removeFirstId target xs

/-- The DOM effect of one renderDashboard call (part_000 lines
274-277): remove the existing overlay element, if any, then append the
freshly built overlay at the end of the body. -/
def renderDashboardDom (page : List String) : List String :=
  removeFirstId popupId page ++ [popupId]

/-- Outcome of the single network fetch: a parsed body, a non-2xx
response, or a transport error. -/
inductive FetchOutcome where
  | ok (items : List Item)
  | httpError (status : Nat) (statusText : String)
  | networkError (msg : String)
deriving DecidableEq

/-- fetchJiraData (part_000 lines 11-23): a non-ok response is turned
into a thrown error carrying the status, a transport failure rejects
with its own message, and a successful body is parsed. -/
def fetchJiraData (now : String) (o : FetchOutcome) : Except String (List Ticket) :=
  match o with
  | .ok items => .ok (parseJiraXML now items)
  | .httpError status statusText =>
    .error ("HTTP " ++ toString status ++ ": " ++ statusText)
  | .networkError msg => .error msg

/-- Whether the fetch outcome is a failure (transport or HTTP). -/
def isFailure (o : FetchOutcome) : Bool :=
  match o with
  | .ok _ => false
  | _ => true

/-- Observable log of one run: how many fetches were issued, the
argument of each renderDashboard call in order, and the console
errors. -/
structure RunLog where
  fetchCount : Nat
  renders : List (List Ticket)
  consoleErrors : List String
deriving DecidableEq

/-- The run sequence (part_000 lines 292-293): one fetch, then either a
render of the parsed tickets, or a render of the empty list followed by
a console error; no retry in either branch. -/
def runDashboard (now : String) (o : FetchOutcome) : RunLog :=
  match fetchJiraData now o with
  | .ok tickets => { fetchCount := 1, renders := [tickets], consoleErrors := [] }
  | .error e => { fetchCount := 1, renders := [[]], consoleErrors := [e] }

/-- The multiset of the elements of a list, used to compare grouped
bucket contents with the input ticket list up to reordering. -/
def msOf {α : Type} (l : List α) : Multiset α := (l : Multiset α)

/-- Sum of a measure of the values of an association list, used to
relate the grouped buckets to the ticket list they came from. -/
def assocSum {α β : Type} [AddCommMonoid β] (m : α → β) (g : List (String × α)) : β :=
  (g.map (fun kv => m kv.2)).sum

/-- A task ticket whose parentKey names a story that exists in no
bucket of its assignee. -/
def orphanTask : Ticket :=
  { id := "", key := "T-1", summary := "orphan", description := ""
  , type := "Task", status := "Unknown", assignee := "Alice"
  , priority := "Medium", updated := "", created := ""
  , parentKey := some "PROJ-9", link := "", comments := [], sprint := none }

/-- A task ticket with no parent at all. -/
def freeTask : Ticket :=
  { id := "", key := "T-2", summary := "free", description := ""
  , type := "Task", status := "Unknown", assignee := "Alice"
  , priority := "Medium", updated := "", created := ""
  , parentKey := none, link := "", comments := [], sprint := none }

/-- A story ticket assigned to Alice. -/
def storyTicket : Ticket :=
  { id := "", key := "S-1", summary := "story", description := ""
  , type := "Story", status := "Unknown", assignee := "Alice"
  , priority := "Medium", updated := "", created := ""
  , parentKey := none, link := "", comments := [], sprint := none }

/-- A ticket whose type is neither a story nor contains the word task. -/
def bugTicket : Ticket :=
  { id := "", key := "B-1", summary := "bug", description := ""
  , type := "Bug", status := "Unknown", assignee := "Alice"
  , priority := "Medium", updated := "", created := ""
  , parentKey := none, link := "", comments := [], sprint := none }

/-- An item carrying only a key element. -/
def keyOnlyItem : Item := { emptyItem with key := some "A" }

/-- An item whose description consists of an amp entity directly
followed by the letters of a quot entity. -/
def ampQuotItem : Item :=
  { emptyItem with key := some "K", description := some "&amp;quot;" }

/-- An item with no key element and a title that starts with a colon. -/
def colonTitleItem : Item := { emptyItem with title := some ":broken title" }

/-- An item with no key element and a regular title. -/
def titledItem : Item := { emptyItem with title := some "AB-1: fix it" }

/-! Basic lemmas about the helpers and the association-list machinery. -/

theorem jsOrS_empty (s : String) : jsOrS s "" = s := by
  unfold jsOrS
  split <;> simp_all

theorem assocSum_nil {α β : Type} [AddCommMonoid β] (m : α → β) :
    assocSum m [] = 0 := rfl

theorem assocSum_cons {α β : Type} [AddCommMonoid β] (m : α → β)
    (kv : String × α) (g : List (String × α)) :
    assocSum m (kv :: g) = m kv.2 + assocSum m g := by
  simp [assocSum]

theorem foldl_preserves {σ γ : Type} (P : σ → Prop) (step : σ → γ → σ)
    (h : ∀ s x, P s → P (step s x)) :
    ∀ (l : List γ) (s : σ), P s → P (l.foldl step s)
  | [], _, hs => hs
  | x :: xs, s, hs => foldl_preserves P step h xs (step s x) (h s x hs)

theorem foldl_measure {σ γ β : Type} [AddCommMonoid β] (μ : σ → β) (δ : γ → β)
    (step : σ → γ → σ) (h : ∀ s x, μ (step s x) = μ s + δ x) :
    ∀ (l : List γ) (s : σ), μ (l.foldl step s) = μ s + (l.map δ).sum := by
  intro l
  induction l with
  | nil => intro s; simp
  | cons x xs ih =>
    intro s
    rw [List.foldl_cons, ih (step s x), h s x, List.map_cons, List.sum_cons, add_assoc]

theorem assocSum_updateAssoc {α β : Type} [AddCommMonoid β] (m : α → β)
    (k : String) (init : α) (f : α → α) (d : β)
    (hf : ∀ a, m (f a) = m a + d) (hinit : m init = 0) :
    ∀ g : List (String × α), assocSum m (updateAssoc k init f g) = assocSum m g + d := by
  intro g
  induction g with
  | nil =>
    show assocSum m [(k, f init)] = assocSum m [] + d
    rw [assocSum_cons, assocSum_nil]
    simp [hf, hinit]
  | cons kv rest ih =>
    obtain ⟨k', v⟩ := kv
    by_cases hk : k' = k
    · show assocSum m (if k' = k then (k', f v) :: rest else _) = _
      rw [if_pos hk, assocSum_cons, assocSum_cons, hf]
      abel
    · show assocSum m (if k' = k then _ else (k', v) :: updateAssoc k init f rest) = _
      rw [if_neg hk, assocSum_cons, assocSum_cons, ih]
      abel

theorem updateAssoc_forall {α : Type} {P : String → α → Prop}
    {k : String} {init : α} {f : α → α}
    (hfi : P k (f init)) (hfp : ∀ v, P k v → P k (f v)) :
    ∀ g : List (String × α), (∀ kv ∈ g, P kv.1 kv.2) →
      ∀ kv ∈ updateAssoc k init f g, P kv.1 kv.2 := by
  intro g
  induction g with
  | nil =>
    intro _ kv hkv
    simp only [updateAssoc, List.mem_singleton] at hkv
    subst hkv
    exact hfi
  | cons kv0 rest ih =>
    intro hall kv hkv
    obtain ⟨k', v⟩ := kv0
    by_cases hk : k' = k
    · rw [show updateAssoc k init f ((k', v) :: rest) = (k', f v) :: rest by
        simp [updateAssoc, hk]] at hkv
      rcases List.mem_cons.mp hkv with h | h
      · subst h
        have hv : P k v := hk ▸ hall (k', v) (List.mem_cons_self _ _)
        simpa [hk] using hfp v hv
      · exact hall kv (List.mem_cons_of_mem _ h)
    · rw [show updateAssoc k init f ((k', v) :: rest) =
          (k', v) :: updateAssoc k init f rest by simp [updateAssoc, hk]] at hkv
      rcases List.mem_cons.mp hkv with h | h
      · subst h
        exact hall (k', v) (List.mem_cons_self _ _)
      · exact ih (fun kv hkv => hall kv (List.mem_cons_of_mem _ hkv)) kv h

theorem updateAssoc_keys {α : Type} (k : String) (init : α) (f : α → α) :
    ∀ g : List (String × α),
      (updateAssoc k init f g).map Prod.fst =
        if k ∈ g.map Prod.fst then g.map Prod.fst else g.map Prod.fst ++ [k] := by
  intro g
  induction g with
  | nil => simp [updateAssoc]
  | cons kv rest ih =>
    obtain ⟨k', v⟩ := kv
    by_cases hk : k' = k
    · subst hk
      simp [updateAssoc]
    · rw [show updateAssoc k init f ((k', v) :: rest) =
          (k', v) :: updateAssoc k init f rest by simp [updateAssoc, hk]]
      by_cases hmem : k ∈ rest.map Prod.fst
      · have hmem' : k ∈ ((k', v) :: rest).map Prod.fst := by
          simp only [List.map_cons, List.mem_cons]
          exact Or.inr hmem
        rw [if_pos hmem']
        simp [ih, hmem]
      · have hmem' : k ∉ ((k', v) :: rest).map Prod.fst := by
          simp only [List.map_cons, List.mem_cons]
          rintro (h | h)
          · exact hk h.symm
          · exact hmem h
        rw [if_neg hmem']
        simp [ih, hmem]

theorem updateAssoc_nodupKeys {α : Type} (k : String) (init : α) (f : α → α)
    (g : List (String × α)) (hnd : (g.map Prod.fst).Nodup) :
    ((updateAssoc k init f g).map Prod.fst).Nodup := by
  rw [updateAssoc_keys]
  by_cases hmem : k ∈ g.map Prod.fst
  · rwa [if_pos hmem]
  · rw [if_neg hmem]
    rw [List.nodup_append]
    refine ⟨hnd, List.nodup_singleton _, ?_⟩
    intro a ha hb
    rw [List.mem_singleton] at hb
    subst hb
    exact hmem ha

theorem lookupAssoc_some_mem {α : Type} (k : String) :
    ∀ (g : List (String × α)) (v : α), lookupAssoc k g = some v → (k, v) ∈ g := by
  intro g
  induction g with
  | nil => intro v h; simp [lookupAssoc] at h
  | cons kv rest ih =>
    intro v h
    obtain ⟨k', v'⟩ := kv
    by_cases hk : k' = k
    · rw [show lookupAssoc k ((k', v') :: rest) = some v' by simp [lookupAssoc, hk]] at h
      obtain rfl : v' = v := by injection h
      subst hk
      exact List.mem_cons_self _ _
    · rw [show lookupAssoc k ((k', v') :: rest) = lookupAssoc k rest by
        simp [lookupAssoc, hk]] at h
      exact List.mem_cons_of_mem _ (ih v h)

theorem lookupAssoc_of_mem_nodup {α : Type} :
    ∀ (g : List (String × α)), (g.map Prod.fst).Nodup →
      ∀ kv ∈ g, lookupAssoc kv.1 g = some kv.2 := by
  intro g
  induction g with
  | nil => intro _ kv hkv; simp at hkv
  | cons kv0 rest ih =>
    intro hnd kv hkv
    obtain ⟨k', v'⟩ := kv0
    rw [List.map_cons, List.nodup_cons] at hnd
    rcases List.mem_cons.mp hkv with h | h
    · subst h
      simp [lookupAssoc]
    · have hne : k' ≠ kv.1 := by
        intro he
        apply hnd.1
        rw [he, List.mem_map]
        exact ⟨kv, h, rfl⟩
      rw [show lookupAssoc kv.1 ((k', v') :: rest) = lookupAssoc kv.1 rest by
        simp [lookupAssoc, hne]]
      exact ih hnd.2 kv h

/-! Multiset bridges between flattened bucket contents and the
original ticket lists. -/

theorem msOf_nil {α : Type} : msOf ([] : List α) = 0 := rfl

theorem msOf_append {α : Type} (l₁ l₂ : List α) :
    msOf (l₁ ++ l₂) = msOf l₁ + msOf l₂ := (Multiset.coe_add l₁ l₂).symm

theorem msOf_singleton {α : Type} (a : α) : msOf [a] = {a} := Multiset.coe_singleton a

theorem msOf_cons {α : Type} (a : α) (l : List α) : msOf (a :: l) = {a} + msOf l := by
  rw [Multiset.singleton_add]
  exact (Multiset.cons_coe a l).symm

theorem msOf_eq_iff_perm {α : Type} (l₁ l₂ : List α) :
    msOf l₁ = msOf l₂ ↔ l₁.Perm l₂ := Multiset.coe_eq_coe

theorem card_msOf {α : Type} (l : List α) : Multiset.card (msOf l) = l.length :=
  Multiset.coe_card l

theorem msOf_flatten {α : Type} :
    ∀ L : List (List α), msOf L.flatten = (L.map msOf).sum := by
  intro L
  induction L with
  | nil => simp [msOf_nil]
  | cons l ls ih =>
    rw [List.flatten_cons, msOf_append, ih, List.map_cons, List.sum_cons]

theorem sum_map_singleton {α : Type} :
    ∀ l : List α, (l.map (fun a => ({a} : Multiset α))).sum = msOf l := by
  intro l
  induction l with
  | nil => simp [msOf_nil]
  | cons a t ih =>
    rw [List.map_cons, List.sum_cons, ih, msOf_cons]

theorem sum_map_ite_filter {α : Type} (p : α → Bool) :
    ∀ l : List α,
      (l.map (fun a => if p a then ({a} : Multiset α) else 0)).sum = msOf (l.filter p) := by
  intro l
  induction l with
  | nil => simp [msOf_nil]
  | cons a t ih =>
    cases hp : p a <;>
      simp [List.filter_cons, hp, ih, msOf_cons]

theorem card_assocSum {α γ : Type} (m : α → Multiset γ) :
    ∀ g : List (String × α),
      Multiset.card (assocSum m g) = (g.map (fun kv => Multiset.card (m kv.2))).sum := by
  intro g
  induction g with
  | nil => simp [assocSum]
  | cons kv rest ih =>
    rw [assocSum_cons, Multiset.card_add, ih, List.map_cons, List.sum_cons]

/-! Content lemmas for the three groupers. -/

theorem emptyBucket_contents :
    msOf (emptyBucket.userStories ++ emptyBucket.tasks) = 0 := rfl

theorem emptyBucketJS_contents :
    msOf (emptyBucketJS.userStories ++ emptyBucketJS.tasks) = 0 := rfl

theorem addTicket_contents (t : Ticket) (b : Bucket) :
    msOf ((addTicket t b).userStories ++ (addTicket t b).tasks)
      = msOf (b.userStories ++ b.tasks) + {t} := by
  cases h : isStory t <;>
    simp only [addTicket, h, Bool.false_eq_true, ite_false, ite_true] <;>
    simp only [msOf_append, msOf_singleton] <;>
    abel

theorem addTicketJS_contents (t : Ticket) (b : BucketJS) :
    msOf ((addTicketJS t b).userStories ++ (addTicketJS t b).tasks)
      = msOf (b.userStories ++ b.tasks) + {t} := by
  cases h : isStory t <;>
    simp only [addTicketJS, h, Bool.false_eq_true, ite_false, ite_true] <;>
    simp only [msOf_append, msOf_singleton] <;>
    abel

theorem msOf_groupedContents (g : List (String × Bucket)) :
    msOf (groupedContents g)
      = assocSum (fun b => msOf (b.userStories ++ b.tasks)) g := by
  rw [groupedContents, msOf_flatten, assocSum, List.map_map]
  rfl

theorem msOf_groupedContentsJS (g : List (String × BucketJS)) :
    msOf (groupedContentsJS g)
      = assocSum (fun b => msOf (b.userStories ++ b.tasks)) g := by
  rw [groupedContentsJS, msOf_flatten, assocSum, List.map_map]
  rfl

theorem groupedContents_perm (tickets : List Ticket) :
    (groupedContents (groupTicketsByAssignee tickets)).Perm tickets := by
  rw [← msOf_eq_iff_perm, msOf_groupedContents, groupTicketsByAssignee]
  rw [foldl_measure
    (assocSum (fun b => msOf (b.userStories ++ b.tasks)))
    (fun t => ({t} : Multiset Ticket))
    (fun acc t => updateAssoc (assigneeKey t) emptyBucket (addTicket t) acc)
    (fun acc t =>
      assocSum_updateAssoc (fun b => msOf (b.userStories ++ b.tasks))
        (assigneeKey t) emptyBucket (addTicket t) {t} (addTicket_contents t)
        emptyBucket_contents acc)
    tickets []]
  rw [assocSum_nil, zero_add, sum_map_singleton]

theorem groupedContentsJS_perm (tickets : List Ticket) :
    (groupedContentsJS (groupTicketsByAssigneeJS tickets)).Perm tickets := by
  rw [← msOf_eq_iff_perm, msOf_groupedContentsJS, groupTicketsByAssigneeJS]
  rw [foldl_measure
    (assocSum (fun b => msOf (b.userStories ++ b.tasks)))
    (fun t => ({t} : Multiset Ticket))
    (fun acc t => updateAssoc t.assignee emptyBucketJS (addTicketJS t) acc)
    (fun acc t =>
      assocSum_updateAssoc (fun b => msOf (b.userStories ++ b.tasks))
        t.assignee emptyBucketJS (addTicketJS t) {t} (addTicketJS_contents t)
        emptyBucketJS_contents acc)
    tickets []]
  rw [assocSum_nil, zero_add, sum_map_singleton]

theorem msOf_sprintContents (g : List (String × List (String × Bucket))) :
    msOf (sprintContents g)
      = assocSum (fun inner => assocSum (fun b => msOf (b.userStories ++ b.tasks)) inner) g := by
  rw [sprintContents, msOf_flatten, assocSum, List.map_map]
  have hfun : (msOf ∘ fun skv : String × List (String × Bucket) => groupedContents skv.2)
      = fun kv : String × List (String × Bucket) =>
          assocSum (fun b => msOf (b.userStories ++ b.tasks)) kv.2 := by
    funext skv
    exact msOf_groupedContents skv.2
  rw [hfun]

theorem sprintContents_perm (tickets : List Ticket) :
    (sprintContents (groupTicketsBySprintAndAssignee tickets)).Perm tickets := by
  rw [← msOf_eq_iff_perm, msOf_sprintContents, groupTicketsBySprintAndAssignee]
  rw [foldl_measure
    (assocSum (fun inner => assocSum (fun b => msOf (b.userStories ++ b.tasks)) inner))
    (fun t => ({t} : Multiset Ticket))
    (fun acc t =>
      updateAssoc (sprintKey t) []
        (fun inner => updateAssoc (assigneeKey t) emptyBucket (addTicket t) inner) acc)
    (fun acc t =>
      assocSum_updateAssoc
        (fun inner => assocSum (fun b => msOf (b.userStories ++ b.tasks)) inner)
        (sprintKey t) []
        (fun inner => updateAssoc (assigneeKey t) emptyBucket (addTicket t) inner) {t}
        (fun inner =>
          assocSum_updateAssoc (fun b => msOf (b.userStories ++ b.tasks))
            (assigneeKey t) emptyBucket (addTicket t) {t} (addTicket_contents t)
            emptyBucket_contents inner)
        rfl acc)
    tickets []]
  rw [assocSum_nil, zero_add, sum_map_singleton]

/-! Classification lemmas: each ticket lands in the bucket of its own
key, stories in userStories, everything else in tasks. -/

theorem addTicket_classified {k : String} (t : Ticket) (hk : assigneeKey t = k) (b : Bucket)
    (hb : (∀ x ∈ b.userStories, assigneeKey x = k ∧ isStory x = true) ∧
          (∀ x ∈ b.tasks, assigneeKey x = k ∧ isStory x = false)) :
    (∀ x ∈ (addTicket t b).userStories, assigneeKey x = k ∧ isStory x = true) ∧
    (∀ x ∈ (addTicket t b).tasks, assigneeKey x = k ∧ isStory x = false) := by
  cases h : isStory t <;>
    simp only [addTicket, h, Bool.false_eq_true, ite_false, ite_true]
  · refine ⟨hb.1, ?_⟩
    intro x hx
    rcases List.mem_append.mp hx with hx | hx
    · exact hb.2 x hx
    · rw [List.mem_singleton] at hx
      subst hx
      exact ⟨hk, h⟩
  · refine ⟨?_, hb.2⟩
    intro x hx
    rcases List.mem_append.mp hx with hx | hx
    · exact hb.1 x hx
    · rw [List.mem_singleton] at hx
      subst hx
      exact ⟨hk, h⟩

theorem addTicketJS_classified {k : String} (t : Ticket) (hk : t.assignee = k) (b : BucketJS)
    (hb : (∀ x ∈ b.userStories, x.assignee = k ∧ isStory x = true) ∧
          (∀ x ∈ b.tasks, x.assignee = k ∧ isStory x = false)) :
    (∀ x ∈ (addTicketJS t b).userStories, x.assignee = k ∧ isStory x = true) ∧
    (∀ x ∈ (addTicketJS t b).tasks, x.assignee = k ∧ isStory x = false) := by
  cases h : isStory t <;>
    simp only [addTicketJS, h, Bool.false_eq_true, ite_false, ite_true]
  · refine ⟨hb.1, ?_⟩
    intro x hx
    rcases List.mem_append.mp hx with hx | hx
    · exact hb.2 x hx
    · rw [List.mem_singleton] at hx
      subst hx
      exact ⟨hk, h⟩
  · refine ⟨?_, hb.2⟩
    intro x hx
    rcases List.mem_append.mp hx with hx | hx
    · exact hb.1 x hx
    · rw [List.mem_singleton] at hx
      subst hx
      exact ⟨hk, h⟩

theorem addTicketS_classified {s k : String} (t : Ticket)
    (hs : sprintKey t = s) (hk : assigneeKey t = k) (b : Bucket)
    (hb : (∀ x ∈ b.userStories, sprintKey x = s ∧ assigneeKey x = k ∧ isStory x = true) ∧
          (∀ x ∈ b.tasks, sprintKey x = s ∧ assigneeKey x = k ∧ isStory x = false)) :
    (∀ x ∈ (addTicket t b).userStories, sprintKey x = s ∧ assigneeKey x = k ∧ isStory x = true) ∧
    (∀ x ∈ (addTicket t b).tasks, sprintKey x = s ∧ assigneeKey x = k ∧ isStory x = false) := by
  cases h : isStory t <;>
    simp only [addTicket, h, Bool.false_eq_true, ite_false, ite_true]
  · refine ⟨hb.1, ?_⟩
    intro x hx
    rcases List.mem_append.mp hx with hx | hx
    · exact hb.2 x hx
    · rw [List.mem_singleton] at hx
      subst hx
      exact ⟨hs, hk, h⟩
  · refine ⟨?_, hb.2⟩
    intro x hx
    rcases List.mem_append.mp hx with hx | hx
    · exact hb.1 x hx
    · rw [List.mem_singleton] at hx
      subst hx
      exact ⟨hs, hk, h⟩

theorem emptyBucket_classified {k : String} :
    (∀ x ∈ emptyBucket.userStories, assigneeKey x = k ∧ isStory x = true) ∧
    (∀ x ∈ emptyBucket.tasks, assigneeKey x = k ∧ isStory x = false) := by
  constructor <;> intro x hx <;> simp [emptyBucket] at hx

theorem emptyBucketJS_classified {k : String} :
    (∀ x ∈ emptyBucketJS.userStories, x.assignee = k ∧ isStory x = true) ∧
    (∀ x ∈ emptyBucketJS.tasks, x.assignee = k ∧ isStory x = false) := by
  constructor <;> intro x hx <;> simp [emptyBucketJS] at hx

theorem emptyBucketS_classified {s k : String} :
    (∀ x ∈ emptyBucket.userStories, sprintKey x = s ∧ assigneeKey x = k ∧ isStory x = true) ∧
    (∀ x ∈ emptyBucket.tasks, sprintKey x = s ∧ assigneeKey x = k ∧ isStory x = false) := by
  constructor <;> intro x hx <;> simp [emptyBucket] at hx

theorem groupedBuckets_classified (tickets : List Ticket) :
    ∀ kv ∈ groupTicketsByAssignee tickets,
      (∀ x ∈ kv.2.userStories, assigneeKey x = kv.1 ∧ isStory x = true) ∧
      (∀ x ∈ kv.2.tasks, assigneeKey x = kv.1 ∧ isStory x = false) := by
  refine foldl_preserves
    (fun g => ∀ kv ∈ g,
      (∀ x ∈ kv.2.userStories, assigneeKey x = kv.1 ∧ isStory x = true) ∧
      (∀ x ∈ kv.2.tasks, assigneeKey x = kv.1 ∧ isStory x = false))
    (fun acc t => updateAssoc (assigneeKey t) emptyBucket (addTicket t) acc)
    (fun acc t hacc => ?_) tickets [] (by intro kv hkv; simp at hkv)
  exact @updateAssoc_forall Bucket
    (fun k b => (∀ x ∈ b.userStories, assigneeKey x = k ∧ isStory x = true) ∧
      (∀ x ∈ b.tasks, assigneeKey x = k ∧ isStory x = false))
    (assigneeKey t) emptyBucket (addTicket t)
    (addTicket_classified t rfl emptyBucket emptyBucket_classified)
    (fun b hb => addTicket_classified t rfl b hb) acc hacc

theorem groupedBucketsJS_classified (tickets : List Ticket) :
    ∀ kv ∈ groupTicketsByAssigneeJS tickets,
      (∀ x ∈ kv.2.userStories, x.assignee = kv.1 ∧ isStory x = true) ∧
      (∀ x ∈ kv.2.tasks, x.assignee = kv.1 ∧ isStory x = false) := by
  refine foldl_preserves
    (fun g => ∀ kv ∈ g,
      (∀ x ∈ kv.2.userStories, x.assignee = kv.1 ∧ isStory x = true) ∧
      (∀ x ∈ kv.2.tasks, x.assignee = kv.1 ∧ isStory x = false))
    (fun acc t => updateAssoc t.assignee emptyBucketJS (addTicketJS t) acc)
    (fun acc t hacc => ?_) tickets [] (by intro kv hkv; simp at hkv)
  exact @updateAssoc_forall BucketJS
    (fun k b => (∀ x ∈ b.userStories, x.assignee = k ∧ isStory x = true) ∧
      (∀ x ∈ b.tasks, x.assignee = k ∧ isStory x = false))
    t.assignee emptyBucketJS (addTicketJS t)
    (addTicketJS_classified t rfl emptyBucketJS emptyBucketJS_classified)
    (fun b hb => addTicketJS_classified t rfl b hb) acc hacc

theorem sprintBuckets_classified (tickets : List Ticket) :
    ∀ skv ∈ groupTicketsBySprintAndAssignee tickets, ∀ akv ∈ skv.2,
      (∀ x ∈ akv.2.userStories,
        sprintKey x = skv.1 ∧ assigneeKey x = akv.1 ∧ isStory x = true) ∧
      (∀ x ∈ akv.2.tasks,
        sprintKey x = skv.1 ∧ assigneeKey x = akv.1 ∧ isStory x = false) := by
  refine foldl_preserves
    (fun g => ∀ skv ∈ g, ∀ akv ∈ skv.2,
      (∀ x ∈ akv.2.userStories,
        sprintKey x = skv.1 ∧ assigneeKey x = akv.1 ∧ isStory x = true) ∧
      (∀ x ∈ akv.2.tasks,
        sprintKey x = skv.1 ∧ assigneeKey x = akv.1 ∧ isStory x = false))
    (fun acc t =>
      updateAssoc (sprintKey t) []
        (fun inner => updateAssoc (assigneeKey t) emptyBucket (addTicket t) inner) acc)
    (fun acc t hacc => ?_) tickets [] (by intro kv hkv; simp at hkv)
  exact @updateAssoc_forall (List (String × Bucket))
    (fun s inner => ∀ akv ∈ inner,
      (∀ x ∈ akv.2.userStories,
        sprintKey x = s ∧ assigneeKey x = akv.1 ∧ isStory x = true) ∧
      (∀ x ∈ akv.2.tasks,
        sprintKey x = s ∧ assigneeKey x = akv.1 ∧ isStory x = false))
    (sprintKey t) []
    (fun inner => updateAssoc (assigneeKey t) emptyBucket (addTicket t) inner)
    (@updateAssoc_forall Bucket
      (fun k b =>
        (∀ x ∈ b.userStories, sprintKey x = sprintKey t ∧ assigneeKey x = k ∧ isStory x = true) ∧
        (∀ x ∈ b.tasks, sprintKey x = sprintKey t ∧ assigneeKey x = k ∧ isStory x = false))
      (assigneeKey t) emptyBucket (addTicket t)
      (addTicketS_classified t rfl rfl emptyBucket emptyBucketS_classified)
      (fun b hb => addTicketS_classified t rfl rfl b hb) []
      (by intro kv hkv; simp at hkv))
    (fun inner hinner =>
      @updateAssoc_forall Bucket
        (fun k b =>
          (∀ x ∈ b.userStories, sprintKey x = sprintKey t ∧ assigneeKey x = k ∧ isStory x = true) ∧
          (∀ x ∈ b.tasks, sprintKey x = sprintKey t ∧ assigneeKey x = k ∧ isStory x = false))
        (assigneeKey t) emptyBucket (addTicket t)
        (addTicketS_classified t rfl rfl emptyBucket emptyBucketS_classified)
        (fun b hb => addTicketS_classified t rfl rfl b hb) inner hinner)
    acc hacc

/-! Lemmas about the renderer's partition of a bucket's tasks by
parent key. -/

theorem msOf_assocFlatten {α : Type} (g : List (String × List α)) :
    msOf ((g.map (fun kv => kv.2)).flatten) = assocSum msOf g := by
  rw [msOf_flatten, assocSum, List.map_map]
  rfl

theorem tasksByParent_perm (tasks : List Ticket) :
    (((tasksByParent tasks).map (fun kv => kv.2)).flatten).Perm tasks := by
  rw [← msOf_eq_iff_perm, msOf_assocFlatten, tasksByParent]
  rw [foldl_measure (assocSum msOf) (fun t => ({t} : Multiset Ticket))
    (fun acc t => updateAssoc (parentBucketKey t) [] (fun l => l ++ [t]) acc)
    (fun acc t =>
      assocSum_updateAssoc msOf (parentBucketKey t) [] (fun l => l ++ [t]) {t}
        (fun l => by rw [msOf_append, msOf_singleton]) msOf_nil acc)
    tasks []]
  rw [assocSum_nil, zero_add, sum_map_singleton]

theorem tasksByParent_classified (tasks : List Ticket) :
    ∀ kv ∈ tasksByParent tasks, ∀ x ∈ kv.2, parentBucketKey x = kv.1 := by
  refine foldl_preserves
    (fun g => ∀ kv ∈ g, ∀ x ∈ kv.2, parentBucketKey x = kv.1)
    (fun acc t => updateAssoc (parentBucketKey t) [] (fun l => l ++ [t]) acc)
    (fun acc t hacc => ?_) tasks [] (by intro kv hkv; simp at hkv)
  refine @updateAssoc_forall (List Ticket)
    (fun k l => ∀ x ∈ l, parentBucketKey x = k)
    (parentBucketKey t) [] (fun l => l ++ [t]) ?_ ?_ acc hacc
  · intro x hx
    simp only [List.nil_append, List.mem_singleton] at hx
    subst hx
    rfl
  · intro l hl x hx
    rcases List.mem_append.mp hx with hx | hx
    · exact hl x hx
    · rw [List.mem_singleton] at hx
      subst hx
      rfl

theorem tasksByParent_nodupKeys (tasks : List Ticket) :
    ((tasksByParent tasks).map Prod.fst).Nodup := by
  refine foldl_preserves (fun g => (g.map Prod.fst).Nodup)
    (fun acc t => updateAssoc (parentBucketKey t) [] (fun l => l ++ [t]) acc)
    (fun acc t hacc => updateAssoc_nodupKeys _ _ _ acc hacc) tasks [] (by simp)

/-! Count lemma connecting the story stat with the grouped buckets. -/

theorem emptyBucket_stories : msOf emptyBucket.userStories = 0 := rfl

theorem addTicket_storyContents (t : Ticket) (b : Bucket) :
    msOf (addTicket t b).userStories
      = msOf b.userStories + (if isStory t then ({t} : Multiset Ticket) else 0) := by
  cases h : isStory t <;>
    simp [addTicket, h, msOf_append, msOf_singleton]

theorem statsUserStories_eq_groupedStoryTotal (tickets : List Ticket) :
    statsUserStories tickets = groupedStoryTotal tickets := by
  have h1 : assocSum (fun b : Bucket => msOf b.userStories) (groupTicketsByAssignee tickets)
      = msOf (tickets.filter (fun t => isStory t)) := by
    rw [groupTicketsByAssignee]
    rw [foldl_measure (assocSum (fun b : Bucket => msOf b.userStories))
      (fun t => if isStory t then ({t} : Multiset Ticket) else 0)
      (fun acc t => updateAssoc (assigneeKey t) emptyBucket (addTicket t) acc)
      (fun acc t =>
        assocSum_updateAssoc (fun b : Bucket => msOf b.userStories)
          (assigneeKey t) emptyBucket (addTicket t)
          (if isStory t then ({t} : Multiset Ticket) else 0)
          (addTicket_storyContents t) emptyBucket_stories acc)
      tickets []]
    rw [assocSum_nil, zero_add, sum_map_ite_filter]
  have h2 := congrArg Multiset.card h1
  rw [card_assocSum] at h2
  simp only [card_msOf] at h2
  unfold statsUserStories groupedStoryTotal
  exact h2.symm

/-! Lemmas about the literal-replacement scanner. -/

theorem replaceLAux_fuel (pat rep : List Char) :
    ∀ (fuel fuel' : Nat) (l : List Char), l.length ≤ fuel → l.length ≤ fuel' →
      replaceLAux pat rep fuel l = replaceLAux pat rep fuel' l := by
  intro fuel
  induction fuel with
  | zero =>
    intro fuel' l hl _
    have hnil : l = [] := List.length_eq_zero.mp (Nat.le_zero.mp hl)
    subst hnil
    cases fuel' <;> rfl
  | succ n ih =>
    intro fuel' l hl hl'
    cases l with
    | nil => cases fuel' <;> rfl
    | cons c rest =>
      cases fuel' with
      | zero => simp at hl'
      | succ m =>
        simp only [List.length_cons] at hl hl'
        simp only [replaceLAux]
        by_cases h : pat.isPrefixOf (c :: rest)
        · rw [if_pos h, if_pos h]
          congr 1
          apply ih
          · rw [List.length_drop]
            omega
          · rw [List.length_drop]
            omega
        · rw [if_neg h, if_neg h]
          congr 1
          apply ih
          · omega
          · omega

theorem replaceL_cons_nomatch {pat : List Char} (rep : List Char) {c : Char} {rest : List Char}
    (h : ¬ pat.isPrefixOf (c :: rest)) :
    replaceL pat rep (c :: rest) = c :: replaceL pat rep rest := by
  show replaceLAux pat rep (c :: rest).length (c :: rest) = _
  simp only [List.length_cons, replaceLAux, if_neg h]
  rfl

theorem replaceL_cons_match {pat : List Char} (rep : List Char) {c : Char} {rest : List Char}
    (h : pat.isPrefixOf (c :: rest)) :
    replaceL pat rep (c :: rest) = rep ++ replaceL pat rep (rest.drop (pat.length - 1)) := by
  show replaceLAux pat rep (c :: rest).length (c :: rest) = _
  simp only [List.length_cons, replaceLAux, if_pos h]
  congr 1
  apply replaceLAux_fuel
  · rw [List.length_drop]
    omega
  · exact Nat.le_refl _

theorem isPrefixOf_snd_false {p c : Char} (ps l : List Char) (h : p ≠ c) :
    (('&' :: p :: ps).isPrefixOf ('&' :: c :: l)) = false := by
  apply Bool.eq_false_iff.mpr
  intro hpre
  have h2 := List.isPrefixOf_iff_prefix.mp hpre
  rw [List.cons_prefix_cons, List.cons_prefix_cons] at h2
  exact h h2.2.1

theorem isPrefixOf_amp_tail (ps b : List Char) :
    (('&' :: ps).isPrefixOf ('&' :: b)) = (ps.isPrefixOf b) := by
  show (('&' == '&') && ps.isPrefixOf b) = ps.isPrefixOf b
  rw [show (('&' : Char) == '&') = true from rfl, Bool.true_and]

theorem amp_not_mem_cons {c : Char} {l : List Char} (hc : ('&' : Char) ≠ c) (hl : '&' ∉ l) :
    '&' ∉ c :: l := by
  intro h
  rcases List.mem_cons.mp h with h | h
  · exact hc h
  · exact hl h

theorem replaceL_amp_free (ps rep : List Char) :
    ∀ l : List Char, '&' ∉ l → replaceL ('&' :: ps) rep l = l := by
  intro l
  induction l with
  | nil => intro _; rfl
  | cons c rest ih =>
    intro hl
    have hnm : ¬ (('&' :: ps).isPrefixOf (c :: rest)) := by
      intro hpre
      have h2 := List.isPrefixOf_iff_prefix.mp hpre
      rw [List.cons_prefix_cons] at h2
      exact hl (List.mem_cons.mpr (Or.inl h2.1))
    rw [replaceL_cons_nomatch rep hnm,
      ih (fun h => hl (List.mem_cons_of_mem _ h))]

theorem replaceL_free_run (ps rep : List Char) :
    ∀ (a t : List Char), '&' ∉ a →
      replaceL ('&' :: ps) rep (a ++ t) = a ++ replaceL ('&' :: ps) rep t := by
  intro a
  induction a with
  | nil => intro t _; rfl
  | cons c arest ih =>
    intro t ha
    have hnm : ¬ (('&' :: ps).isPrefixOf (c :: (arest ++ t))) := by
      intro hpre
      have h2 := List.isPrefixOf_iff_prefix.mp hpre
      rw [List.cons_prefix_cons] at h2
      exact ha (List.mem_cons.mpr (Or.inl h2.1))
    rw [List.cons_append, replaceL_cons_nomatch rep hnm,
      ih t (fun h => ha (List.mem_cons_of_mem _ h))]
    rfl

theorem replaceL_match_here (p : Char) (ps rep b : List Char) :
    replaceL (p :: ps) rep (p :: (ps ++ b)) = rep ++ replaceL (p :: ps) rep b := by
  have h : (p :: ps).isPrefixOf (p :: (ps ++ b)) :=
    List.isPrefixOf_iff_prefix.mpr (List.prefix_append _ _)
  rw [replaceL_cons_match rep h,
    show (p :: ps).length - 1 = ps.length by simp, List.drop_left]

theorem replaceL_skip_amp {p2 : Char} (ps rep : List Char) {c2 : Char} {l : List Char}
    (hne : p2 ≠ c2) (hl : '&' ∉ c2 :: l) :
    replaceL ('&' :: p2 :: ps) rep ('&' :: c2 :: l) = '&' :: c2 :: l := by
  have hnm : ¬ (('&' :: p2 :: ps).isPrefixOf ('&' :: c2 :: l)) := by
    intro hx
    rw [isPrefixOf_snd_false ps l hne] at hx
    simp at hx
  rw [replaceL_cons_nomatch rep hnm, replaceL_amp_free _ rep _ hl]

theorem replaceL_skip_all {p2 : Char} (ps rep : List Char) (a : List Char) {c2 : Char}
    {l : List Char} (ha : '&' ∉ a) (hne : p2 ≠ c2) (hl : '&' ∉ c2 :: l) :
    replaceL ('&' :: p2 :: ps) rep (a ++ '&' :: c2 :: l) = a ++ '&' :: c2 :: l := by
  rw [replaceL_free_run _ rep a _ ha, replaceL_skip_amp ps rep hne hl]

/-! Behaviour of the entity-decoding chain on a single occurrence with
ampersand-free context. -/

theorem decodeEntities_toList (s : String) :
    (decodeEntities s).toList =
      replaceL ['&', 'q', 'u', 'o', 't', ';'] ['"']
        (replaceL ['&', 'a', 'm', 'p', ';'] ['&']
          (replaceL ['&', 'g', 't', ';'] ['>']
            (replaceL ['&', 'l', 't', ';'] ['<'] s.toList))) := rfl

theorem decodeEntities_lt (a b : List Char) (ha : '&' ∉ a) (hb : '&' ∉ b) :
    (decodeEntities ⟨a ++ '&' :: 'l' :: 't' :: ';' :: b⟩).toList = a ++ '<' :: b := by
  rw [decodeEntities_toList]
  show replaceL ['&', 'q', 'u', 'o', 't', ';'] ['"']
      (replaceL ['&', 'a', 'm', 'p', ';'] ['&']
        (replaceL ['&', 'g', 't', ';'] ['>']
          (replaceL ['&', 'l', 't', ';'] ['<'] (a ++ '&' :: 'l' :: 't' :: ';' :: b))))
    = a ++ '<' :: b
  have h1 : replaceL ['&', 'l', 't', ';'] ['<'] (a ++ '&' :: 'l' :: 't' :: ';' :: b)
      = a ++ '<' :: b := by
    rw [replaceL_free_run ['l', 't', ';'] ['<'] a ('&' :: 'l' :: 't' :: ';' :: b) ha,
      show ('&' :: 'l' :: 't' :: ';' :: b) = '&' :: (['l', 't', ';'] ++ b) from rfl,
      replaceL_match_here '&' ['l', 't', ';'] ['<'] b,
      replaceL_amp_free ['l', 't', ';'] ['<'] b hb]
    rfl
  have hfree : '&' ∉ a ++ '<' :: b := by
    intro h
    rcases List.mem_append.mp h with h | h
    · exact ha h
    · rcases List.mem_cons.mp h with h | h
      · exact absurd h (by decide)
      · exact hb h
  rw [h1, replaceL_amp_free ['g', 't', ';'] ['>'] _ hfree,
    replaceL_amp_free ['a', 'm', 'p', ';'] ['&'] _ hfree,
    replaceL_amp_free ['q', 'u', 'o', 't', ';'] ['"'] _ hfree]

theorem decodeEntities_gt (a b : List Char) (ha : '&' ∉ a) (hb : '&' ∉ b) :
    (decodeEntities ⟨a ++ '&' :: 'g' :: 't' :: ';' :: b⟩).toList = a ++ '>' :: b := by
  rw [decodeEntities_toList]
  show replaceL ['&', 'q', 'u', 'o', 't', ';'] ['"']
      (replaceL ['&', 'a', 'm', 'p', ';'] ['&']
        (replaceL ['&', 'g', 't', ';'] ['>']
          (replaceL ['&', 'l', 't', ';'] ['<'] (a ++ '&' :: 'g' :: 't' :: ';' :: b))))
    = a ++ '>' :: b
  have htail : '&' ∉ 'g' :: 't' :: ';' :: b :=
    amp_not_mem_cons (by decide)
      (amp_not_mem_cons (by decide) (amp_not_mem_cons (by decide) hb))
  rw [replaceL_skip_all ['t', ';'] ['<'] a ha (by decide) htail]
  have h2 : replaceL ['&', 'g', 't', ';'] ['>'] (a ++ '&' :: 'g' :: 't' :: ';' :: b)
      = a ++ '>' :: b := by
    rw [replaceL_free_run ['g', 't', ';'] ['>'] a ('&' :: 'g' :: 't' :: ';' :: b) ha,
      show ('&' :: 'g' :: 't' :: ';' :: b) = '&' :: (['g', 't', ';'] ++ b) from rfl,
      replaceL_match_here '&' ['g', 't', ';'] ['>'] b,
      replaceL_amp_free ['g', 't', ';'] ['>'] b hb]
    rfl
  have hfree : '&' ∉ a ++ '>' :: b := by
    intro h
    rcases List.mem_append.mp h with h | h
    · exact ha h
    · rcases List.mem_cons.mp h with h | h
      · exact absurd h (by decide)
      · exact hb h
  rw [h2, replaceL_amp_free ['a', 'm', 'p', ';'] ['&'] _ hfree,
    replaceL_amp_free ['q', 'u', 'o', 't', ';'] ['"'] _ hfree]

theorem decodeEntities_quot (a b : List Char) (ha : '&' ∉ a) (hb : '&' ∉ b) :
    (decodeEntities ⟨a ++ '&' :: 'q' :: 'u' :: 'o' :: 't' :: ';' :: b⟩).toList
      = a ++ '"' :: b := by
  rw [decodeEntities_toList]
  show replaceL ['&', 'q', 'u', 'o', 't', ';'] ['"']
      (replaceL ['&', 'a', 'm', 'p', ';'] ['&']
        (replaceL ['&', 'g', 't', ';'] ['>']
          (replaceL ['&', 'l', 't', ';'] ['<']
            (a ++ '&' :: 'q' :: 'u' :: 'o' :: 't' :: ';' :: b))))
    = a ++ '"' :: b
  have htail : '&' ∉ 'q' :: 'u' :: 'o' :: 't' :: ';' :: b :=
    amp_not_mem_cons (by decide)
      (amp_not_mem_cons (by decide)
        (amp_not_mem_cons (by decide)
          (amp_not_mem_cons (by decide) (amp_not_mem_cons (by decide) hb))))
  rw [replaceL_skip_all ['t', ';'] ['<'] a ha (by decide) htail,
    replaceL_skip_all ['t', ';'] ['>'] a ha (by decide) htail,
    replaceL_skip_all ['m', 'p', ';'] ['&'] a ha (by decide) htail,
    replaceL_free_run ['q', 'u', 'o', 't', ';'] ['"'] a
      ('&' :: 'q' :: 'u' :: 'o' :: 't' :: ';' :: b) ha,
    show ('&' :: 'q' :: 'u' :: 'o' :: 't' :: ';' :: b)
      = '&' :: (['q', 'u', 'o', 't', ';'] ++ b) from rfl,
    replaceL_match_here '&' ['q', 'u', 'o', 't', ';'] ['"'] b,
    replaceL_amp_free ['q', 'u', 'o', 't', ';'] ['"'] b hb]
  rfl

theorem decodeEntities_amp (a b : List Char) (ha : '&' ∉ a) (hb : '&' ∉ b)
    (hnq : (['q', 'u', 'o', 't', ';'].isPrefixOf b) = false) :
    (decodeEntities ⟨a ++ '&' :: 'a' :: 'm' :: 'p' :: ';' :: b⟩).toList = a ++ '&' :: b := by
  rw [decodeEntities_toList]
  show replaceL ['&', 'q', 'u', 'o', 't', ';'] ['"']
      (replaceL ['&', 'a', 'm', 'p', ';'] ['&']
        (replaceL ['&', 'g', 't', ';'] ['>']
          (replaceL ['&', 'l', 't', ';'] ['<'] (a ++ '&' :: 'a' :: 'm' :: 'p' :: ';' :: b))))
    = a ++ '&' :: b
  have htail : '&' ∉ 'a' :: 'm' :: 'p' :: ';' :: b :=
    amp_not_mem_cons (by decide)
      (amp_not_mem_cons (by decide)
        (amp_not_mem_cons (by decide) (amp_not_mem_cons (by decide) hb)))
  rw [replaceL_skip_all ['t', ';'] ['<'] a ha (by decide) htail,
    replaceL_skip_all ['t', ';'] ['>'] a ha (by decide) htail]
  have h3 : replaceL ['&', 'a', 'm', 'p', ';'] ['&'] (a ++ '&' :: 'a' :: 'm' :: 'p' :: ';' :: b)
      = a ++ '&' :: b := by
    rw [replaceL_free_run ['a', 'm', 'p', ';'] ['&'] a
        ('&' :: 'a' :: 'm' :: 'p' :: ';' :: b) ha,
      show ('&' :: 'a' :: 'm' :: 'p' :: ';' :: b) = '&' :: (['a', 'm', 'p', ';'] ++ b) from rfl,
      replaceL_match_here '&' ['a', 'm', 'p', ';'] ['&'] b,
      replaceL_amp_free ['a', 'm', 'p', ';'] ['&'] b hb]
    rfl
  rw [h3, replaceL_free_run ['q', 'u', 'o', 't', ';'] ['"'] a ('&' :: b) ha]
  have hnm : ¬ (['&', 'q', 'u', 'o', 't', ';'].isPrefixOf ('&' :: b)) := by
    intro hx
    rw [show (['&', 'q', 'u', 'o', 't', ';'] : List Char) = '&' :: ['q', 'u', 'o', 't', ';']
        from rfl, isPrefixOf_amp_tail, hnq] at hx
    simp at hx
  rw [replaceL_cons_nomatch ['"'] hnm, replaceL_amp_free ['q', 'u', 'o', 't', ';'] ['"'] b hb]

/-! Field projections of the constructed ticket and the parser's
filter characterisation. -/

theorem makeTicket_key (now : String) (i : Item) :
    (makeTicket now i).key = resolveKey i := rfl

theorem parseStep_key_empty {now : String} {i : Item} (acc : List Ticket)
    (h : resolveKey i = "") : parseStep now acc i = acc := by
  simp [parseStep, makeTicket_key, h]

theorem parseStep_key_ne {now : String} {i : Item} (acc : List Ticket)
    (h : ¬ resolveKey i = "") : parseStep now acc i = acc ++ [makeTicket now i] := by
  simp [parseStep, makeTicket_key, h]

theorem parseJiraXML_characterisation (now : String) (items : List Item) :
    parseJiraXML now items
      = (items.filter (fun i => resolveKey i != "")).map (makeTicket now) := by
  have aux : ∀ (its : List Item) (acc : List Ticket),
      its.foldl (parseStep now) acc
        = acc ++ (its.filter (fun i => resolveKey i != "")).map (makeTicket now) := by
    intro its
    induction its with
    | nil => intro acc; simp
    | cons i rest ih =>
      intro acc
      rw [List.foldl_cons]
      by_cases h : resolveKey i = ""
      · rw [parseStep_key_empty acc h, ih acc, List.filter_cons]
        simp [h]
      · rw [parseStep_key_ne acc h, ih (acc ++ [makeTicket now i]), List.filter_cons]
        simp [h]
  rw [parseJiraXML, aux items []]
  rfl

/-! Lemmas about the overlay element count in the page model. -/

theorem count_removeFirstId (target : String) :
    ∀ page : List String, page.count target ≤ 1 →
      (removeFirstId target page).count target = 0 := by
  intro page
  induction page with
  | nil => intro _; rfl
  | cons x xs ih =>
    intro h
    by_cases hx : x = target
    · rw [show removeFirstId target (x :: xs) = xs by simp [removeFirstId, hx]]
      subst hx
      simp only [List.count_cons] at h
      simp at h
      omega
    · rw [show removeFirstId target (x :: xs) = x :: removeFirstId target xs by
        simp [removeFirstId, hx]]
      simp only [List.count_cons] at h ⊢
      have hne : (x == target) = false := by
        simp [hx]
      rw [hne] at h ⊢
      simp at h ⊢
      exact ih h

theorem count_renderDashboardDom (page : List String) (h : page.count popupId ≤ 1) :
    (renderDashboardDom page).count popupId = 1 := by
  rw [renderDashboardDom, List.count_append, count_removeFirstId popupId page h]
  simp

/-! Claim theorems. -/

/-- C1 counterexample: the single-ticket list holding a task whose
parentKey is PROJ-9 gives an Alice bucket with no story, so the
parentKey matches no story key in the bucket; the claim then demands
the task in the standalone bucket, but the partition files it under
the key PROJ-9 and the standalone list is empty. -/
theorem c1_counterexample :
    lookupAssoc "Alice" (groupTicketsByAssignee [orphanTask])
        = some { userStories := [], tasks := [orphanTask], raw := [orphanTask] }
      ∧ orphanTask.parentKey = some "PROJ-9"
      ∧ standaloneTasks [orphanTask] = []
      ∧ lookupAssoc "PROJ-9" (tasksByParent [orphanTask]) = some [orphanTask] := by
  decide

/-- C1 (amended): the renderer's partition puts every task in exactly
one bucket, keyed by its parentKey when that is present and non-empty
and by the sentinel standalone otherwise; hence a task is rendered
under Standalone Tasks exactly when its parentKey is absent or empty,
regardless of whether its parentKey matches any story key. -/
theorem c1_tasksByParent_standalone :
    ∀ tasks : List Ticket,
      (∀ kv ∈ tasksByParent tasks, ∀ x ∈ kv.2, parentBucketKey x = kv.1)
      ∧ (((tasksByParent tasks).map (fun kv => kv.2)).flatten).Perm tasks
      ∧ (∀ t ∈ tasks, t ∈ standaloneTasks tasks ↔ parentBucketKey t = "standalone") := by
  intro tasks
  refine ⟨tasksByParent_classified tasks, tasksByParent_perm tasks, ?_⟩
  intro t ht
  constructor
  · intro hmem
    unfold standaloneTasks at hmem
    cases hlk : lookupAssoc "standalone" (tasksByParent tasks) with
    | none => rw [hlk] at hmem; simp at hmem
    | some l =>
      rw [hlk] at hmem
      simp only [Option.getD_some] at hmem
      have hkv := lookupAssoc_some_mem "standalone" (tasksByParent tasks) l hlk
      exact tasksByParent_classified tasks ("standalone", l) hkv t hmem
  · intro hpk
    have hmem : t ∈ ((tasksByParent tasks).map (fun kv => kv.2)).flatten :=
      ((tasksByParent_perm tasks).mem_iff).mpr ht
    rw [List.mem_flatten] at hmem
    obtain ⟨l, hl, htl⟩ := hmem
    rw [List.mem_map] at hl
    obtain ⟨kv, hkv, rfl⟩ := hl
    have hkey : parentBucketKey t = kv.1 := tasksByParent_classified tasks kv hkv t htl
    have hlk := lookupAssoc_of_mem_nodup (tasksByParent tasks)
      (tasksByParent_nodupKeys tasks) kv hkv
    unfold standaloneTasks
    have hks : kv.1 = "standalone" := hkey.symm.trans hpk
    rw [← hks, hlk]
    simpa using htl

/-- C1 witness: a task with no parentKey is in the standalone list. -/
theorem c1_tasksByParent_standalone_witness :
    freeTask ∈ standaloneTasks [freeTask] :=
  ((c1_tasksByParent_standalone [freeTask]).2.2 freeTask (by decide)).mpr (by decide)

/-- C2: each of the three groupers partitions the input: the flattened
userStories and tasks contents of all buckets are a permutation of the
input list (no ticket lost, none duplicated), every ticket sits in the
bucket of its own assignee key (and sprint key in the sprint variant),
stories (type containing the word story, case-insensitively) in
userStories and all others in tasks. -/
theorem c2_grouping_partition :
    ∀ tickets : List Ticket,
      (groupedContents (groupTicketsByAssignee tickets)).Perm tickets
      ∧ (∀ kv ∈ groupTicketsByAssignee tickets,
          (∀ x ∈ kv.2.userStories, assigneeKey x = kv.1 ∧ isStory x = true) ∧
          (∀ x ∈ kv.2.tasks, assigneeKey x = kv.1 ∧ isStory x = false))
      ∧ (groupedContentsJS (groupTicketsByAssigneeJS tickets)).Perm tickets
      ∧ (∀ kv ∈ groupTicketsByAssigneeJS tickets,
          (∀ x ∈ kv.2.userStories, x.assignee = kv.1 ∧ isStory x = true) ∧
          (∀ x ∈ kv.2.tasks, x.assignee = kv.1 ∧ isStory x = false))
      ∧ (sprintContents (groupTicketsBySprintAndAssignee tickets)).Perm tickets
      ∧ (∀ skv ∈ groupTicketsBySprintAndAssignee tickets, ∀ akv ∈ skv.2,
          (∀ x ∈ akv.2.userStories,
            sprintKey x = skv.1 ∧ assigneeKey x = akv.1 ∧ isStory x = true) ∧
          (∀ x ∈ akv.2.tasks,
            sprintKey x = skv.1 ∧ assigneeKey x = akv.1 ∧ isStory x = false)) :=
  fun tickets =>
    ⟨groupedContents_perm tickets, groupedBuckets_classified tickets,
     groupedContentsJS_perm tickets, groupedBucketsJS_classified tickets,
     sprintContents_perm tickets, sprintBuckets_classified tickets⟩

/-- C2 witness: the story ticket lands in the Alice bucket's
userStories list with matching key and classification. -/
theorem c2_grouping_partition_witness :
    assigneeKey storyTicket = "Alice" ∧ isStory storyTicket = true :=
  ((c2_grouping_partition [storyTicket]).2.1
    ("Alice", { userStories := [storyTicket], tasks := [], raw := [storyTicket] })
    (by decide)).1 storyTicket (by decide)

/-- C3 counterexample: two items with the same key A both resolve to a
non-empty key, and the parser's output holds two ticket records with
that key, not exactly one. -/
theorem c3_counterexample :
    resolveKey keyOnlyItem = "A"
    ∧ ((parseJiraXML "2024-01-01" [keyOnlyItem, keyOnlyItem]).filter
        (fun t => t.key == "A")).length = 2 := by
  decide

/-- C3 (amended): each item with a non-empty resolved key contributes
exactly one record with that key, so the output holds as many records
with a given key as there are items resolving to it — at least one,
and exactly one precisely when no other item yields the same key. -/
theorem c3_key_multiplicity :
    ∀ (now : String) (items : List Item) (i : Item), i ∈ items → resolveKey i ≠ "" →
      ((parseJiraXML now items).filter (fun t => t.key == resolveKey i)).length
          = (items.filter (fun j => resolveKey j == resolveKey i)).length
      ∧ 1 ≤ ((parseJiraXML now items).filter (fun t => t.key == resolveKey i)).length := by
  intro now items i hi hne
  have hlen : ((parseJiraXML now items).filter (fun t => t.key == resolveKey i)).length
      = (items.filter (fun j => resolveKey j == resolveKey i)).length := by
    rw [parseJiraXML_characterisation now items, List.filter_map, List.length_map]
    congr 1
    rw [List.filter_filter]
    apply List.filter_congr
    intro j _
    show ((makeTicket now j).key == resolveKey i && (resolveKey j != ""))
        = (resolveKey j == resolveKey i)
    rw [makeTicket_key]
    cases heq : (resolveKey j == resolveKey i) with
    | false => simp
    | true =>
      have hj : resolveKey j = resolveKey i := eq_of_beq heq
      simp [hj, hne]
  refine ⟨hlen, ?_⟩
  rw [hlen]
  have himem : i ∈ items.filter (fun j => resolveKey j == resolveKey i) := by
    rw [List.mem_filter]
    exact ⟨hi, by simp⟩
  have hpos := List.length_pos.mpr (List.ne_nil_of_mem himem)
  omega

/-- C3 witness: with a single item carrying key A, the output has
exactly one record with key A. -/
theorem c3_key_multiplicity_witness :
    ((parseJiraXML "2024-01-01" [keyOnlyItem]).filter
        (fun t => t.key == resolveKey keyOnlyItem)).length
      = ([keyOnlyItem].filter (fun j => resolveKey j == resolveKey keyOnlyItem)).length
    ∧ 1 ≤ ((parseJiraXML "2024-01-01" [keyOnlyItem]).filter
        (fun t => t.key == resolveKey keyOnlyItem)).length :=
  c3_key_multiplicity "2024-01-01" [keyOnlyItem] keyOnlyItem (by decide) (by decide)

/-- C4: the parser never fails and returns exactly the tickets built
from the items whose resolved key (key element or title fallback) is
non-empty, in feed order: items with no resolvable key are exactly the
ones excluded, and every other item is still parsed. -/
theorem c4_keyless_items_excluded :
    ∀ (now : String) (items : List Item),
      parseJiraXML now items
        = (items.filter (fun i => resolveKey i != "")).map (makeTicket now) :=
  parseJiraXML_characterisation

/-- C5 counterexample: the description "&amp;quot;" contains exactly
one of the four entity sequences, namely the amp entity, which the
claim says is decoded to an ampersand in the parsed description; but
the parsed description is a lone double-quote holding no ampersand at
all, because the ampersand produced by the amp replacement recombined
with the following letters and was consumed by the later quot
replacement. -/
theorem c5_counterexample :
    ampQuotItem.description = some "&amp;quot;"
    ∧ (makeTicket "2024-01-01" ampQuotItem).description = "\""
    ∧ ((makeTicket "2024-01-01" ampQuotItem).description.toList.contains '&') = false := by
  decide

/-- C5 (amended): description and comment bodies are obtained by the
fixed four-step replacement chain (lt, gt, amp, quot, in that order)
followed by trim; in ampersand-free context a single lt, gt or quot
entity decodes to its character, and a single amp entity decodes to an
ampersand provided the following text does not start with the letters
of a quot entity — in that case the chain double-decodes, since amp is
replaced before quot. -/
theorem c5_entity_decoding :
    (∀ (now : String) (i : Item) (raw : String), i.description = some raw →
        (makeTicket now i).description = jsTrim (decodeEntities raw))
    ∧ (∀ rc : RawComment, (makeComment rc).body = jsTrim (decodeEntities rc.body))
    ∧ (∀ (now : String) (i : Item) (cs : List RawComment), i.comments = some cs →
        (makeTicket now i).comments = cs.map makeComment)
    ∧ (∀ a b : List Char, '&' ∉ a → '&' ∉ b →
        (decodeEntities ⟨a ++ '&' :: 'l' :: 't' :: ';' :: b⟩).toList = a ++ '<' :: b)
    ∧ (∀ a b : List Char, '&' ∉ a → '&' ∉ b →
        (decodeEntities ⟨a ++ '&' :: 'g' :: 't' :: ';' :: b⟩).toList = a ++ '>' :: b)
    ∧ (∀ a b : List Char, '&' ∉ a → '&' ∉ b →
        (decodeEntities ⟨a ++ '&' :: 'q' :: 'u' :: 'o' :: 't' :: ';' :: b⟩).toList
          = a ++ '"' :: b)
    ∧ (∀ a b : List Char, '&' ∉ a → '&' ∉ b →
        (['q', 'u', 'o', 't', ';'].isPrefixOf b) = false →
        (decodeEntities ⟨a ++ '&' :: 'a' :: 'm' :: 'p' :: ';' :: b⟩).toList
          = a ++ '&' :: b) := by
  refine ⟨?_, ?_, ?_, decodeEntities_lt, decodeEntities_gt, decodeEntities_quot,
    decodeEntities_amp⟩
  · intro now i raw h
    simp [makeTicket, h]
  · intro rc
    rfl
  · intro now i cs h
    simp [makeTicket, h]

/-- C5 witness: a description holding one lt entity in ampersand-free
context decodes through the parser and through the chain. -/
theorem c5_entity_decoding_witness :
    (makeTicket "2024-01-01"
        { emptyItem with key := some "K", description := some "a&lt;b" }).description
      = jsTrim (decodeEntities "a&lt;b")
    ∧ (decodeEntities ⟨['a'] ++ '&' :: 'l' :: 't' :: ';' :: ['b']⟩).toList
      = ['a'] ++ '<' :: ['b'] :=
  ⟨c5_entity_decoding.1 "2024-01-01"
      { emptyItem with key := some "K", description := some "a&lt;b" } "a&lt;b" (by decide),
   c5_entity_decoding.2.2.2.1 ['a'] ['b'] (by decide) (by decide)⟩

/-- C6 counterexample: for an item with no created, updated or pubDate
element the created field equals the ambient clock reading, so two
runs at different instants give different values — the default is not
any fixed sentinel string — and parentKey defaults to no string at
all. -/
theorem c6_counterexample :
    (parseJiraXML "2024-01-01T00:00:00Z" [keyOnlyItem]).map (fun t => t.created)
        = ["2024-01-01T00:00:00Z"]
    ∧ (parseJiraXML "2099-12-31T23:59:59Z" [keyOnlyItem]).map (fun t => t.created)
        = ["2099-12-31T23:59:59Z"]
    ∧ "2024-01-01T00:00:00Z" ≠ "2099-12-31T23:59:59Z"
    ∧ (makeTicket "2024-01-01T00:00:00Z" keyOnlyItem).parentKey = none := by
  decide

/-- C6 (amended): the four named sentinels hold — status Unknown,
assignee Unassigned (after the reporter fallback), priority Medium,
type Task — but the remaining fields do not default to sentinel
strings: id, summary, description and link default to the empty
string, parentKey stays absent, created and updated fall back to
pubDate and then to the current clock reading, and comments default to
the empty list. -/
theorem c6_field_defaults :
    ∀ (now : String) (i : Item),
      (i.status = none → (makeTicket now i).status = "Unknown")
      ∧ (i.assignee = none → i.reporter = none → (makeTicket now i).assignee = "Unassigned")
      ∧ (i.priority = none → (makeTicket now i).priority = "Medium")
      ∧ (i.type = none → (makeTicket now i).type = "Task")
      ∧ (i.guid = none → i.link = none → (makeTicket now i).id = "")
      ∧ (i.summary = none → i.title = none → (makeTicket now i).summary = "")
      ∧ (i.description = none → (makeTicket now i).description = "")
      ∧ (i.link = none → (makeTicket now i).link = "")
      ∧ (i.parent = none → (makeTicket now i).parentKey = none)
      ∧ (i.created = none → i.pubDate = none → (makeTicket now i).created = now)
      ∧ (i.updated = none → i.pubDate = none → (makeTicket now i).updated = now)
      ∧ (i.comments = none → (makeTicket now i).comments = []) := by
  intro now i
  refine ⟨?_, ?_, ?_, ?_, ?_, ?_, ?_, ?_, ?_, ?_, ?_, ?_⟩ <;>
    intro h1 <;>
    first
      | (intro h2; simp [makeTicket, jsOr, truthyOpt, h1, h2])
      | simp [makeTicket, jsOr, truthyOpt, h1]

/-- C6 witness: the named and the clock defaults at a concrete item
and instant. -/
theorem c6_field_defaults_witness :
    (makeTicket "2024-06-01T12:00:00Z" keyOnlyItem).status = "Unknown"
    ∧ (makeTicket "2024-06-01T12:00:00Z" keyOnlyItem).created = "2024-06-01T12:00:00Z" :=
  ⟨(c6_field_defaults "2024-06-01T12:00:00Z" keyOnlyItem).1 (by decide),
   (c6_field_defaults "2024-06-01T12:00:00Z" keyOnlyItem).2.2.2.2.2.2.2.2.2.1
     (by decide) (by decide)⟩

/-- C7: a failed fetch (transport error or non-2xx response) produces
exactly one console error, exactly one render whose argument is the
empty ticket list, and no second fetch. -/
theorem c7_fetch_failure_renders_empty :
    ∀ (now : String) (o : FetchOutcome), isFailure o = true →
      (runDashboard now o).renders = [[]]
      ∧ (runDashboard now o).consoleErrors.length = 1
      ∧ (runDashboard now o).fetchCount = 1 := by
  intro now o ho
  cases o with
  | ok items => simp [isFailure] at ho
  | httpError status statusText => exact ⟨rfl, rfl, rfl⟩
  | networkError msg => exact ⟨rfl, rfl, rfl⟩

/-- C7 witness: a concrete transport failure. -/
theorem c7_fetch_failure_witness :
    (runDashboard "2024-01-01" (FetchOutcome.networkError "boom")).renders = [[]]
    ∧ (runDashboard "2024-01-01" (FetchOutcome.networkError "boom")).consoleErrors.length = 1
    ∧ (runDashboard "2024-01-01" (FetchOutcome.networkError "boom")).fetchCount = 1 :=
  c7_fetch_failure_renders_empty "2024-01-01" (FetchOutcome.networkError "boom") (by decide)

/-- C8: on a page holding at most one element with the overlay
identifier (HTML keeps identifiers unique), one render leaves exactly
one overlay element and so does a second render: each render removes
the existing overlay before appending the new one. -/
theorem c8_render_idempotent :
    ∀ page : List String, page.count popupId ≤ 1 →
      (renderDashboardDom (renderDashboardDom page)).count popupId = 1
      ∧ (renderDashboardDom page).count popupId = 1 := by
  intro page h
  have h1 := count_renderDashboardDom page h
  exact ⟨count_renderDashboardDom _ (le_of_eq h1), h1⟩

/-- C8 witness: a concrete page with one prior overlay. -/
theorem c8_render_idempotent_witness :
    (renderDashboardDom (renderDashboardDom ["header", popupId])).count popupId = 1 :=
  (c8_render_idempotent ["header", popupId] (by decide)).1

/-- C9 counterexample: an item with no key element and the non-empty
title ":broken title" is dropped by the parser, because the text
before the first colon is empty; the claim says only items lacking
both key and title text are excluded. -/
theorem c9_counterexample :
    colonTitleItem.key = none
    ∧ colonTitleItem.title = some ":broken title"
    ∧ (":broken title" : String) ≠ ""
    ∧ parseJiraXML "2024-01-01" [colonTitleItem] = [] := by
  decide

/-- C9 (amended): an item with no key element takes its key from the
title text before the first colon (the whole title when it has no
colon) and is kept exactly when that segment is non-empty — so an item
whose title starts with a colon is dropped even though its title is
non-empty. -/
theorem c9_title_fallback :
    ∀ (now : String) (i : Item), i.key = none →
      resolveKey i = firstColonSegment (jsOr i.title "")
      ∧ (firstColonSegment (jsOr i.title "") ≠ "" →
          parseJiraXML now [i] = [makeTicket now i]
          ∧ (makeTicket now i).key = firstColonSegment (jsOr i.title ""))
      ∧ (firstColonSegment (jsOr i.title "") = "" → parseJiraXML now [i] = []) := by
  intro now i hk
  have hres : resolveKey i = firstColonSegment (jsOr i.title "") := by
    rw [resolveKey, hk]
    rfl
  refine ⟨hres, ?_, ?_⟩
  · intro hne
    constructor
    · show List.foldl (parseStep now) [] [i] = [makeTicket now i]
      rw [List.foldl_cons, List.foldl_nil, parseStep_key_ne [] (by rw [hres]; exact hne)]
      rfl
    · rw [makeTicket_key, hres]
  · intro he
    show List.foldl (parseStep now) [] [i] = []
    rw [List.foldl_cons, List.foldl_nil, parseStep_key_empty [] (by rw [hres]; exact he)]

/-- C9 witness: an item with no key element and the title AB-1: fix it
is kept, with key AB-1. -/
theorem c9_title_fallback_witness :
    parseJiraXML "2024-01-01" [titledItem] = [makeTicket "2024-01-01" titledItem]
    ∧ (makeTicket "2024-01-01" titledItem).key
        = firstColonSegment (jsOr titledItem.title "") :=
  (c9_title_fallback "2024-01-01" titledItem (by decide)).2.1 (by decide)

/-- C10: the story stat always equals the total userStories content of
the grouped buckets, since the stat filter and the grouper use the
same substring test; but the task stat counts only types containing
the word task while the grouper buckets every non-story as a task, so
on a single Bug ticket the task stat is strictly below the grouped
task total and the two stats do not sum to the ticket count. -/
theorem c10_stats_vs_buckets :
    (∀ tickets : List Ticket, statsUserStories tickets = groupedStoryTotal tickets)
    ∧ statsTasks [bugTicket] < groupedTaskTotal [bugTicket]
    ∧ statsUserStories [bugTicket] + statsTasks [bugTicket] ≠ statsTotalTickets [bugTicket] := by
  refine ⟨statsUserStories_eq_groupedStoryTotal, ?_, ?_⟩ <;> decide

end JiraDashboard
